import Mathlib

/-!
Verification of the grblHAL M800 internal-keyway cycle plugin.

The repository contains two variants of the plugin:
  * `src/keyway/keyway_plugin.c` - the sag-compensated internal-keyway
    variant (primary).  Its validator is `m800_validate` and its cycle is
    `m800_execute`; machine floats are modelled by exact real arithmetic,
    `sqrtf` by `Real.sqrt`, and the stream of `mc_line` calls,
    `protocol_buffer_synchronize` calls and always-on status messages by a
    list of events.  Debug trace lines (gated by `M800_DEBUG`) are not
    modelled.
  * `src/unnamed/part_002` - the plain (non-compensated) variant, whose
    validator reports a distinct message per failed check and whose motion
    loop conditionally elides the Safe and BackZ moves.  Its embedding uses
    the `p2` identifiers below; the unconditional per-move diagnostic
    prints are not modelled, the motion stream is.

The pure sequencing layer (`kwMotion` and friends) is stated over a general
linear ordered field so that concrete evaluations can be carried out over
`ℚ` while the full cycle `m800_execute` instantiates it over `ℝ`.
-/

/-- Motion mode of an issued move: `plan_g0` (rapid) or `plan_g1` (feed). -/
inductive Mode
  | rapid
  | feed
deriving DecidableEq, Repr

/-- Observable event of a cycle run: an always-on status message
(`hal.stream.write` / `report_message`), an issued motion command
(`mc_line` with its two relevant axis targets), or a
`protocol_buffer_synchronize` call. -/
inductive Ev (α : Type)
  | msg (s : String)
  | move (m : Mode) (x z : α)
  | sync
deriving DecidableEq, Repr

section Sequencer

variable {α : Type} [LinearOrderedField α]

/-- `halfC = Cslot * 0.5f` (keyway_plugin.c line 285). -/
def halfWidth (W : α) : α := W * (1 / 2)

/-- Repeat a block of events `n` times (the `for(rep = 0; rep < Lreps; rep++)`
loops; the repetition index only affects debug prints). -/
def listRepeat (n : ℕ) (l : List (Ev α)) : List (Ev α) :=
  match n with
  | 0 => []
  | n + 1 => l ++ listRepeat n l

/-- Pre-positioning rapid move (keyway_plugin.c lines 319-328):
`target = (X_new_start, Z_start + R)`. -/
def kwPrepos (Xns Zs R : α) : List (Ev α) :=
  [Ev.move Mode.rapid Xns (Zs + R)]

/-- One repetition of the zero-penetration first safety pass
(keyway_plugin.c lines 333-361).  `mc_line` targets in order:
G0 SAFE, G1 DEPTH (same position), G1 LENGTH, G0 BACKX, G0 BACKZ. -/
def kwFirstRep (Xns Zs Q R : α) : List (Ev α) :=
  [Ev.move Mode.rapid Xns (Zs + R),
   Ev.move Mode.feed Xns (Zs + R),
   Ev.move Mode.feed Xns (Zs + Q),
   Ev.move Mode.rapid Xns (Zs + Q),
   Ev.move Mode.rapid Xns (Zs + R)]

/-- The whole first safety pass: `Lreps` repetitions. -/
def kwFirstSection (Xns Zs Q R : α) (Lreps : ℕ) : List (Ev α) :=
  listRepeat Lreps (kwFirstRep Xns Zs Q R)

/-- Plunge target of radial pass `pass` (keyway_plugin.c lines 372-374):
`X_target = X_new_start + pass * P; if(X_target > X_final) X_target = X_final`. -/
def kwPassTarget (Xns P Xfin : α) (pass : ℕ) : α :=
  if Xns + (pass : α) * P > Xfin then Xfin else Xns + (pass : α) * P

/-- One repetition of a radial pass at plunge target `Xt`
(keyway_plugin.c lines 376-404): G0 SAFE, G1 DEPTH, G1 LENGTH,
G0 BACKX, G0 BACKZ. -/
def kwRadialRep (Xns Xt Zs Q R : α) : List (Ev α) :=
  [Ev.move Mode.rapid Xns (Zs + R),
   Ev.move Mode.feed Xt (Zs + R),
   Ev.move Mode.feed Xt (Zs + Q),
   Ev.move Mode.rapid Xns (Zs + Q),
   Ev.move Mode.rapid Xns (Zs + R)]

/-- The radial-pass section for the first `n` passes
(keyway_plugin.c lines 370-405, `for(pass = 1; pass <= passes; pass++)`):
passes are emitted in increasing order of the pass index. -/
def kwRadialSection (Xns Xfin P Zs Q R : α) (Lreps : ℕ) : ℕ → List (Ev α)
  | 0 => []
  | n + 1 =>
      kwRadialSection Xns Xfin P Zs Q R Lreps n ++
        listRepeat Lreps (kwRadialRep Xns (kwPassTarget Xns P Xfin (n + 1)) Zs Q R)

/-- Final return move (keyway_plugin.c lines 414-425): to the captured start
when `return_home`, else to `(X_new_start, Z_start + R)`. -/
def kwReturnMove (rh : Bool) (Xs Zs Xns R : α) : Ev α :=
  if rh then Ev.move Mode.rapid Xs Zs else Ev.move Mode.rapid Xns (Zs + R)

/-- All motion of a cycle whose geometry checks passed: pre-positioning,
first safety pass, radial passes, final return. -/
def kwMotion (Xs Zs Xns Xfin P Q R : α) (passes Lreps : ℕ) (rh : Bool) :
    List (Ev α) :=
  kwPrepos Xns Zs R ++
    kwFirstSection Xns Zs Q R Lreps ++
    kwRadialSection Xns Xfin P Zs Q R Lreps passes ++
    [kwReturnMove rh Xs Zs Xns R]

/-- The tail of `m800_execute` after the geometry guard passed: the motion,
then `protocol_buffer_synchronize()`, then the always-on end marker
(keyway_plugin.c lines 427-432). -/
def kwCycle (Xs Zs Xns Xfin P Q R : α) (passes Lreps : ℕ) (rh : Bool) :
    List (Ev α) :=
  kwMotion Xs Zs Xns Xfin P Q R passes Lreps rh ++
    [Ev.sync, Ev.msg "M800 CYCLE END"]

/-- Status codes returned by the validator (grblHAL `status_code_t`,
restricted to the two values `m800_validate` produces for its own mcode). -/
inductive KwStatus
  | ok
  | invalidStatement
deriving DecidableEq, Repr

/-- Raw parser block fields consumed by the keyway_plugin.c variant.
The L word is an integer-valued parser word (modelled by `ℤ`); the value
words are floats (modelled by the field `α`).  `words_l` / `words_h`
record whether the optional words were supplied. -/
structure KwBlock (α : Type) where
  d : α
  q : α
  s : α
  p : α
  r : α
  words_l : Bool
  l : ℤ
  words_h : Bool
  h : α

/-- `m800_validate` of keyway_plugin.c (lines 202-237): the sequence of
checks, in source order, each returning `Status_InvalidStatement` on
failure.  `feed` is the ambient `gc_state.feed_rate`. -/
def m800_validate (b : KwBlock α) (feed : α) : KwStatus :=
  if b.d ≤ 0 then KwStatus.invalidStatement
  else if b.q ≤ 0 then KwStatus.invalidStatement
  else if b.s ≤ 0 then KwStatus.invalidStatement
  else if b.p ≤ 0 then KwStatus.invalidStatement
  else if b.r ≤ 0 then KwStatus.invalidStatement
  else if b.p > b.d then KwStatus.invalidStatement
  else if b.words_l ∧ b.l < 1 then KwStatus.invalidStatement
  else if b.words_h ∧ b.h ≠ 0 ∧ b.h ≠ 1 then KwStatus.invalidStatement
  else if feed ≤ 0 then KwStatus.invalidStatement
  else KwStatus.ok

end Sequencer

/-! ### Sag-compensation geometry (keyway_plugin.c lines 283-298, over `ℝ`) -/

/-- `d_center = sqrtf(Rbore*Rbore - halfC*halfC)` (line 293). -/
noncomputable def centerDistance (R W : ℝ) : ℝ :=
  Real.sqrt (R * R - halfWidth W * halfWidth W)

/-- `sag = Rbore - d_center` (line 294). -/
noncomputable def sag (R W : ℝ) : ℝ := R - centerDistance R W

/-- `X_new_start = X_start - sag` (line 296). -/
noncomputable def compensatedStart (R W : ℝ) : ℝ := R - sag R W

/-- `Dcorr = D + sag` (line 297). -/
noncomputable def compensatedDepth (D R W : ℝ) : ℝ := D + sag R W

/-- `X_final = X_new_start + Dcorr` (line 298). -/
noncomputable def finalTarget (D R W : ℝ) : ℝ :=
  compensatedStart R W + compensatedDepth D R W

section PlainVariant

variable {α : Type} [LinearOrderedField α]

/-- Raw parser block fields consumed by the plain variant
(src/unnamed/part_002).  The N word is an integer-valued parser word
(modelled by `ℤ`); the value words are floats (the field `α`). -/
structure P2Block (α : Type) where
  d : α
  l : α
  p : α
  r : α
  f : α
  words_n : Bool
  n : ℤ
  words_h : Bool
  h : α

/-- `m800_validate` of src/unnamed/part_002 (lines 36-98): each failed check
reports its own message via `report_message` and returns
`Status_InvalidStatement`; the message stands for the rejection reason. -/
def p2_validate (b : P2Block α) : Except String Unit :=
  if b.d ≤ 0 then Except.error "M800: D must be > 0."
  else if b.l ≤ 0 then Except.error "M800: L must be > 0."
  else if b.p ≤ 0 then Except.error "M800: P must be > 0."
  else if b.r ≤ 0 then Except.error "M800: R must be > 0."
  else if b.f ≤ 0 then Except.error "M800: F must be > 0."
  else if b.p > b.d then Except.error "M800: P cannot be greater than D."
  else if b.words_n ∧ b.n < 1 then Except.error "M800: N must be >= 1."
  else if b.words_h ∧ b.h ≠ 0 ∧ b.h ≠ 1 then Except.error "M800: H must be 0 or 1."
  else Except.ok ()

/-- One repetition body of the plain variant's pass loop
(src/unnamed/part_002 lines 181-255), threading the mutable `target`
state `st = (x, z)`.  The Safe rapid (lines 194-200) and the BackZ rapid
(lines 244-254) are emitted only when the target differs from the current
position by more than `0.0001` on some axis; Depth, Length and BackX are
emitted unconditionally.  `cd` is `current_depth`, `L` and `R` the
(sign-adjusted) slot length and retract.  Because the Depth move writes
both target coordinates, the state after BackX is `(Xs, Zs + L)` whatever
the Safe branch did, so the rep's post-state depends only on the BackZ
condition; the definition exploits this to avoid threading intermediate
states. -/
def p2Rep (Xs Zs L R cd : α) (st : α × α) : List (Ev α) × (α × α) :=
  ((if |st.1 - Xs| > 1 / 10000 ∨ |st.2 - (Zs + R)| > 1 / 10000 then
      [Ev.move Mode.rapid Xs (Zs + R)] else []) ++
    [Ev.move Mode.feed (Xs + cd) (Zs + R),
     Ev.move Mode.feed (Xs + cd) (Zs + L),
     Ev.move Mode.rapid Xs (Zs + L)] ++
    (if |Zs + L - (Zs + R)| > 1 / 10000 then
      [Ev.move Mode.rapid Xs (Zs + R)] else []),
   if |Zs + L - (Zs + R)| > 1 / 10000 then (Xs, Zs + R) else (Xs, Zs + L))

/-- `N` repetitions at a fixed depth (the inner `for(rep ...)` loop). -/
def p2Reps (Xs Zs L R cd : α) : ℕ → (α × α) → List (Ev α) × (α × α)
  | 0, st => ([], st)
  | n + 1, st =>
      let head := p2Rep Xs Zs L R cd st
      let rest := p2Reps Xs Zs L R cd n head.2
      (head.1 ++ rest.1, rest.2)

/-- The outer pass loop starting at pass index `k` with `n` passes left
(src/unnamed/part_002 lines 177-256); `current_depth` after the increment
of pass `k` is `(k + 1) * P` (`P` is already negated). -/
def p2PassesFrom (Xs Zs L R P : α) (N : ℕ) : ℕ → ℕ → (α × α) → List (Ev α) × (α × α)
  | _, 0, st => ([], st)
  | k, n + 1, st =>
      let head := p2Reps Xs Zs L R (((k : α) + 1) * P) N st
      let rest := p2PassesFrom Xs Zs L R P N (k + 1) n head.2
      (head.1 ++ rest.1, rest.2)

/-- `m800_execute` of src/unnamed/part_002 (lines 105-296) for its own
mcode, as the list of observable events.  `D L P R F` are the block values,
`Xs Zs` the captured machine position.  Mirrors the source: initial
synchronize, begin marker, `passes = (int)(fabsf(total_depth / P) + 0.0001f)`
with `total_depth = -D` and the step already negated, the pass loop, the
unconditional final feed plunge to `(X_start - D, Z_start + R)`
(lines 258-269), the optional rapid return to the captured start (H1),
then synchronize and the end marker. -/
def p2_execute [FloorRing α] (d l p r : α) (words_n : Bool) (n : ℤ)
    (h : α) (Xs Zs : α) : List (Ev α) :=
  let L : α := -l
  let P : α := -p
  let N : ℕ := (if words_n then n else 1).toNat
  let rh : Bool := if h = 0 then false else true
  let passes : ℕ := (⌊|(-d) / P| + 1 / 10000⌋).toNat
  Ev.sync :: Ev.msg "M800 CYCLE BEGIN" ::
    ((p2PassesFrom Xs Zs L r P N 0 passes (Xs, Zs)).1 ++
      Ev.move Mode.feed (Xs - d) (Zs + r) ::
        ((if rh then [Ev.move Mode.rapid Xs Zs] else []) ++
          [Ev.sync, Ev.msg "M800 CYCLE END"]))

end PlainVariant

/-- `m800_execute` of keyway_plugin.c (lines 244-433) for its own mcode,
as the list of observable events.  Parameters are the parser block fields
(`d q s p r`, the optional words and their values) and the captured machine
position `(Xs, Zs)` in mm.  Mirrors the source: initial synchronize, start
marker, geometry guard (abort path lines 287-291), sag compensation, then
the motion sections and the synchronized end marker.  Note `return_home`
compares the raw H value against `1.0f` (line 263) and `Lreps` consults
`words.l` (line 262). -/
noncomputable def m800_execute (d q s p r : ℝ) (words_l : Bool) (l : ℤ)
    (h : ℝ) (Xs Zs : ℝ) : List (Ev ℝ) :=
  let Q : ℝ := -q
  let Lreps : ℕ := (if words_l then l else 1).toNat
  let rh : Bool := if h = 1 then true else false
  Ev.sync :: Ev.msg "M800 CYCLE START" ::
    (if halfWidth s > Xs then
      [Ev.msg "M800: Slot width exceeds bore diameter.",
       Ev.msg "M800 CYCLE END"]
    else
      kwCycle Xs Zs (compensatedStart Xs s)
        (compensatedStart Xs s + compensatedDepth d Xs s) p Q r
        (⌈compensatedDepth d Xs s / p⌉).toNat Lreps rh)

/-! ### Structural lemmas about the sequencing layer -/

section SequencerLemmas

variable {α : Type} [LinearOrderedField α]

lemma mem_listRepeat {l : List (Ev α)} {n : ℕ} {a : Ev α}
    (ha : a ∈ listRepeat n l) : a ∈ l := by
  induction n with
  | zero => simp [listRepeat] at ha
  | succ n ih =>
      simp only [listRepeat, List.mem_append] at ha
      rcases ha with ha | ha
      · exact ha
      · exact ih ha

lemma listRepeat_length (l : List (Ev α)) (n : ℕ) :
    (listRepeat n l).length = n * l.length := by
  induction n with
  | zero => simp [listRepeat]
  | succ n ih => simp [listRepeat, ih, Nat.succ_mul, Nat.add_comm]

lemma kwRadialSection_length (Xns Xfin P Zs Q R : α) (Lreps n : ℕ) :
    (kwRadialSection Xns Xfin P Zs Q R Lreps n).length = 5 * Lreps * n := by
  induction n with
  | zero => simp [kwRadialSection]
  | succ n ih =>
      simp [kwRadialSection, ih, listRepeat_length, kwRadialRep, Nat.mul_succ,
        Nat.mul_comm]

lemma kwPassTarget_eq_min (Xns P Xfin : α) (k : ℕ) :
    kwPassTarget Xns P Xfin k = min (Xns + (k : α) * P) Xfin := by
  unfold kwPassTarget
  rcases le_or_lt (Xns + (k : α) * P) Xfin with hle | hlt
  · rw [if_neg (not_lt.mpr hle), min_eq_left hle]
  · rw [if_pos hlt, min_eq_right hlt.le]

lemma mem_kwRadialSection {Xns Xfin P Zs Q R : α} {Lreps n : ℕ} {m : Mode}
    {x z : α} (hmem : Ev.move m x z ∈ kwRadialSection Xns Xfin P Zs Q R Lreps n) :
    (x = Xns ∨ ∃ k, 1 ≤ k ∧ k ≤ n ∧ x = kwPassTarget Xns P Xfin k) ∧
      (z = Zs + R ∨ z = Zs + Q) := by
  induction n with
  | zero => simp [kwRadialSection] at hmem
  | succ n ih =>
      simp only [kwRadialSection, List.mem_append] at hmem
      rcases hmem with hmem | hmem
      · rcases ih hmem with ⟨hx, hz⟩
        refine ⟨?_, hz⟩
        rcases hx with hx | ⟨k, hk1, hk2, hk3⟩
        · exact Or.inl hx
        · exact Or.inr ⟨k, hk1, hk2.trans (Nat.le_succ n), hk3⟩
      · have hrep := mem_listRepeat hmem
        simp only [kwRadialRep, List.mem_cons, List.mem_singleton,
          List.not_mem_nil, or_false] at hrep
        rcases hrep with h1 | h1 | h1 | h1 | h1 <;>
          rcases Ev.move.injEq .. ▸ h1 with ⟨hm, hx, hz⟩ <;>
          subst hx <;> subst hz
        · exact ⟨Or.inl rfl, Or.inl rfl⟩
        · exact ⟨Or.inr ⟨n + 1, Nat.le_add_left 1 n, le_refl _, rfl⟩, Or.inl rfl⟩
        · exact ⟨Or.inr ⟨n + 1, Nat.le_add_left 1 n, le_refl _, rfl⟩, Or.inr rfl⟩
        · exact ⟨Or.inl rfl, Or.inr rfl⟩
        · exact ⟨Or.inl rfl, Or.inl rfl⟩

lemma mem_kwMotion_move {Xs Zs Xns Xfin P Q R : α} {passes Lreps : ℕ}
    {rh : Bool} {m : Mode} {x z : α}
    (hmem : Ev.move m x z ∈ kwMotion Xs Zs Xns Xfin P Q R passes Lreps rh) :
    ((x = Xns ∨ ∃ k, 1 ≤ k ∧ k ≤ passes ∧ x = kwPassTarget Xns P Xfin k) ∧
       (z = Zs + R ∨ z = Zs + Q)) ∨
      (rh = true ∧ x = Xs ∧ z = Zs) ∨ (rh = false ∧ x = Xns ∧ z = Zs + R) := by
  simp only [kwMotion, List.mem_append] at hmem
  rcases hmem with ((hmem | hmem) | hmem) | hmem
  · simp only [kwPrepos, List.mem_singleton] at hmem
    obtain ⟨hm, hx, hz⟩ := Ev.move.inj hmem
    exact Or.inl ⟨Or.inl hx, Or.inl hz⟩
  · have hrep := mem_listRepeat hmem
    simp only [kwFirstRep, List.mem_cons, List.mem_singleton,
      List.not_mem_nil, or_false] at hrep
    rcases hrep with h1 | h1 | h1 | h1 | h1 <;>
      obtain ⟨hm, hx, hz⟩ := Ev.move.inj h1 <;>
      exact Or.inl ⟨Or.inl hx, by rw [hz]; simp⟩
  · exact Or.inl (mem_kwRadialSection hmem)
  · simp only [List.mem_singleton] at hmem
    unfold kwReturnMove at hmem
    cases rh with
    | true =>
        rw [if_pos rfl] at hmem
        obtain ⟨hm, hx, hz⟩ := Ev.move.inj hmem
        exact Or.inr (Or.inl ⟨rfl, hx, hz⟩)
    | false =>
        rw [if_neg (by simp)] at hmem
        obtain ⟨hm, hx, hz⟩ := Ev.move.inj hmem
        exact Or.inr (Or.inr ⟨rfl, hx, hz⟩)

lemma kwRadialSection_all_moves {Xns Xfin P Zs Q R : α} {Lreps n : ℕ}
    {ev : Ev α} (hmem : ev ∈ kwRadialSection Xns Xfin P Zs Q R Lreps n) :
    ∃ m x z, ev = Ev.move m x z := by
  induction n with
  | zero => simp [kwRadialSection] at hmem
  | succ n ih =>
      simp only [kwRadialSection, List.mem_append] at hmem
      rcases hmem with hmem | hmem
      · exact ih hmem
      · have hrep := mem_listRepeat hmem
        simp only [kwRadialRep, List.mem_cons, List.mem_singleton,
          List.not_mem_nil, or_false] at hrep
        rcases hrep with h1 | h1 | h1 | h1 | h1 <;> exact ⟨_, _, _, h1⟩

lemma kwMotion_all_moves {Xs Zs Xns Xfin P Q R : α} {passes Lreps : ℕ}
    {rh : Bool} {ev : Ev α}
    (hmem : ev ∈ kwMotion Xs Zs Xns Xfin P Q R passes Lreps rh) :
    ∃ m x z, ev = Ev.move m x z := by
  simp only [kwMotion, List.mem_append] at hmem
  rcases hmem with ((hmem | hmem) | hmem) | hmem
  · simp only [kwPrepos, List.mem_singleton] at hmem
    exact ⟨_, _, _, hmem⟩
  · have hrep := mem_listRepeat hmem
    simp only [kwFirstRep, List.mem_cons, List.mem_singleton,
      List.not_mem_nil, or_false] at hrep
    rcases hrep with h1 | h1 | h1 | h1 | h1 <;> exact ⟨_, _, _, h1⟩
  · exact kwRadialSection_all_moves hmem
  · simp only [List.mem_singleton] at hmem
    unfold kwReturnMove at hmem
    cases rh with
    | true => rw [if_pos rfl] at hmem; exact ⟨_, _, _, hmem⟩
    | false => rw [if_neg (by simp)] at hmem; exact ⟨_, _, _, hmem⟩

end SequencerLemmas

/-! ### Basic facts about the sag geometry -/

lemma sag_nonneg {R W : ℝ} (h0 : 0 ≤ W) (hle : halfWidth W ≤ R) :
    0 ≤ sag R W := by
  unfold sag centerDistance
  have h1 : 0 ≤ halfWidth W := by unfold halfWidth; linarith
  have h2 : Real.sqrt (R * R - halfWidth W * halfWidth W) ≤ R := by
    have h3 : R * R - halfWidth W * halfWidth W ≤ R * R := by nlinarith
    calc Real.sqrt (R * R - halfWidth W * halfWidth W)
        ≤ Real.sqrt (R * R) := Real.sqrt_le_sqrt h3
      _ = R := Real.sqrt_mul_self (h1.trans hle)
  linarith

lemma sag_le_self (R W : ℝ) : sag R W ≤ R := by
  unfold sag centerDistance
  have h1 := Real.sqrt_nonneg (R * R - halfWidth W * halfWidth W)
  linarith

/-- Reduction of `m800_execute` when the geometry guard passes. -/
lemma m800_execute_of_guard {d q s p r : ℝ} {words_l : Bool} {l : ℤ}
    {h Xs Zs : ℝ} (hguard : halfWidth s ≤ Xs) :
    m800_execute d q s p r words_l l h Xs Zs =
      Ev.sync :: Ev.msg "M800 CYCLE START" ::
        kwCycle Xs Zs (compensatedStart Xs s) (finalTarget d Xs s) p (-q) r
          (⌈compensatedDepth d Xs s / p⌉).toNat
          ((if words_l then l else 1).toNat)
          (if h = 1 then true else false) := by
  simp only [m800_execute]
  rw [if_neg (not_lt.mpr hguard)]
  rfl

/-! ### Claim theorems -/

/-- C1: for every validated parameter set (all words positive,
`stepPerPass ≤ finalDepth`) whose geometry guard passes, `m800_execute`
runs the radial-pass section for exactly `ceil(compensatedDepth / stepPerPass)`
passes (a positive count), the plunge target of pass `k` is
`min(compensatedStart + k * stepPerPass, finalTarget)`, the final pass is
clamped to `finalTarget` exactly, and no emitted move's plunge-axis
coordinate exceeds `finalTarget`. -/
theorem c1_radial_pass_count (d q s p r h Xs Zs : ℝ) (words_l : Bool) (l : ℤ)
    (hd : 0 < d) (hq : 0 < q) (hs : 0 < s) (hp : 0 < p) (hr : 0 < r)
    (hpd : p ≤ d) (hguard : halfWidth s ≤ Xs) :
    m800_execute d q s p r words_l l h Xs Zs =
        Ev.sync :: Ev.msg "M800 CYCLE START" ::
          kwCycle Xs Zs (compensatedStart Xs s) (finalTarget d Xs s) p (-q) r
            (⌈compensatedDepth d Xs s / p⌉).toNat
            ((if words_l then l else 1).toNat)
            (if h = 1 then true else false) ∧
      1 ≤ ⌈compensatedDepth d Xs s / p⌉ ∧
      (kwRadialSection (compensatedStart Xs s) (finalTarget d Xs s) p Zs (-q) r
          ((if words_l then l else 1).toNat)
          (⌈compensatedDepth d Xs s / p⌉).toNat).length =
        5 * ((if words_l then l else 1).toNat) *
          (⌈compensatedDepth d Xs s / p⌉).toNat ∧
      (∀ k : ℕ, kwPassTarget (compensatedStart Xs s) p (finalTarget d Xs s) k =
        min (compensatedStart Xs s + (k : ℝ) * p) (finalTarget d Xs s)) ∧
      kwPassTarget (compensatedStart Xs s) p (finalTarget d Xs s)
          (⌈compensatedDepth d Xs s / p⌉).toNat = finalTarget d Xs s ∧
      ∀ m x z, Ev.move m x z ∈ m800_execute d q s p r words_l l h Xs Zs →
        x ≤ finalTarget d Xs s := by
  have hsag : 0 ≤ sag Xs s := sag_nonneg hs.le hguard
  have hDc : 0 < compensatedDepth d Xs s := by
    unfold compensatedDepth; linarith
  have hceil : 1 ≤ ⌈compensatedDepth d Xs s / p⌉ :=
    Int.ceil_pos.mpr (div_pos hDc hp)
  have hcast : ((⌈compensatedDepth d Xs s / p⌉.toNat : ℕ) : ℝ) =
      ((⌈compensatedDepth d Xs s / p⌉ : ℤ) : ℝ) := by
    exact_mod_cast Int.toNat_of_nonneg (by linarith : (0:ℤ) ≤ ⌈compensatedDepth d Xs s / p⌉)
  have hXfin : compensatedStart Xs s ≤ finalTarget d Xs s := by
    unfold finalTarget; linarith
  have hclamp : finalTarget d Xs s ≤
      compensatedStart Xs s + (⌈compensatedDepth d Xs s / p⌉.toNat : ℝ) * p := by
    have h1 : compensatedDepth d Xs s / p ≤ (⌈compensatedDepth d Xs s / p⌉ : ℝ) :=
      Int.le_ceil _
    have h2 : compensatedDepth d Xs s ≤ (⌈compensatedDepth d Xs s / p⌉ : ℝ) * p :=
      (div_le_iff hp).mp h1
    rw [hcast]
    unfold finalTarget
    linarith
  refine ⟨m800_execute_of_guard hguard, hceil, kwRadialSection_length .., ?_, ?_, ?_⟩
  · exact fun k => kwPassTarget_eq_min ..
  · rw [kwPassTarget_eq_min, min_eq_right hclamp]
  · intro m x z hmem
    rw [m800_execute_of_guard hguard] at hmem
    simp only [List.mem_cons, kwCycle, List.mem_append] at hmem
    rcases hmem with h1 | h1 | (h1 | h1)
    · exact absurd h1 (by simp)
    · exact absurd h1 (by simp)
    · rcases mem_kwMotion_move h1 with ⟨hx, _⟩ | ⟨_, hx, _⟩ | ⟨_, hx, _⟩
      · rcases hx with hx | ⟨k, hk1, hk2, hx⟩
        · rw [hx]; exact hXfin
        · rw [hx, kwPassTarget_eq_min]; exact min_le_right _ _
      · rw [hx]
        unfold finalTarget compensatedStart compensatedDepth
        linarith
      · rw [hx]; exact hXfin
    · exact absurd h1 (by simp)

/-- Witness for C1: the command `M800 D1 Q10 S12 P1 R2 H1` issued from
machine position `X=10 Z=0` (sag 2, compensated depth 3, three passes). -/
theorem c1_radial_pass_count_witness :
    m800_execute 1 10 12 1 2 false 0 1 10 0 =
        Ev.sync :: Ev.msg "M800 CYCLE START" ::
          kwCycle 10 0 (compensatedStart 10 12) (finalTarget 1 10 12) 1 (-10) 2
            (⌈compensatedDepth 1 10 12 / 1⌉).toNat
            ((if false then (0:ℤ) else 1).toNat)
            (if (1:ℝ) = 1 then true else false) ∧
      1 ≤ ⌈compensatedDepth 1 10 12 / 1⌉ ∧
      (kwRadialSection (compensatedStart 10 12) (finalTarget 1 10 12) 1 0 (-10) 2
          ((if false then (0:ℤ) else 1).toNat)
          (⌈compensatedDepth 1 10 12 / 1⌉).toNat).length =
        5 * ((if false then (0:ℤ) else 1).toNat) *
          (⌈compensatedDepth 1 10 12 / 1⌉).toNat ∧
      (∀ k : ℕ, kwPassTarget (compensatedStart 10 12) 1 (finalTarget 1 10 12) k =
        min (compensatedStart 10 12 + (k : ℝ) * 1) (finalTarget 1 10 12)) ∧
      kwPassTarget (compensatedStart 10 12) 1 (finalTarget 1 10 12)
          (⌈compensatedDepth 1 10 12 / 1⌉).toNat = finalTarget 1 10 12 ∧
      ∀ m x z, Ev.move m x z ∈ m800_execute 1 10 12 1 2 false 0 1 10 0 →
        x ≤ finalTarget 1 10 12 :=
  c1_radial_pass_count 1 10 12 1 2 1 10 0 false 0 (by norm_num) (by norm_num)
    (by norm_num) (by norm_num) (by norm_num) (by norm_num)
    (by norm_num [halfWidth])

/-- C2: the Geometry Compensator computes `centerDistance = sqrt(R^2 - (W/2)^2)`,
`sag = R - centerDistance`, `compensatedStart = R - sag`,
`compensatedDepth = requestedDepth + sag` and
`finalTarget = compensatedStart + compensatedDepth`; for the Scenario B
inputs `D=2, W=8, R=10` this gives `halfWidth 4`, `centerDistance ~ 9.165`,
`sag ~ 0.835`, `compensatedStart ~ 9.165`, `compensatedDepth ~ 2.835` and
`finalTarget ~ 12.0`, each within `0.001`. -/
theorem c2_sag_geometry :
    (∀ R W D : ℝ, halfWidth W ≤ R →
      centerDistance R W = Real.sqrt (R ^ 2 - (W / 2) ^ 2) ∧
      sag R W = R - centerDistance R W ∧
      compensatedStart R W = R - sag R W ∧
      compensatedDepth D R W = D + sag R W ∧
      finalTarget D R W = compensatedStart R W + compensatedDepth D R W) ∧
    halfWidth (8 : ℝ) = 4 ∧
    |centerDistance 10 8 - 9.165| < 0.001 ∧
    |sag 10 8 - 0.835| < 0.001 ∧
    |compensatedStart 10 8 - 9.165| < 0.001 ∧
    |compensatedDepth 2 10 8 - 2.835| < 0.001 ∧
    |finalTarget 2 10 8 - 12.0| < 0.001 := by
  have hc : centerDistance 10 8 = Real.sqrt 84 := by
    unfold centerDistance halfWidth; norm_num
  have hs := Real.sq_sqrt (by norm_num : (84:ℝ) ≥ 0)
  have hnn := Real.sqrt_nonneg (84:ℝ)
  refine ⟨?_, by norm_num [halfWidth], ?_, ?_, ?_, ?_, ?_⟩
  · intro R W D hRW
    refine ⟨?_, rfl, rfl, rfl, rfl⟩
    unfold centerDistance halfWidth
    congr 1
    ring
  · rw [hc, abs_lt]; constructor <;> nlinarith
  · unfold sag; rw [hc, abs_lt]; constructor <;> nlinarith
  · unfold compensatedStart sag; rw [hc, abs_lt]; constructor <;> nlinarith
  · unfold compensatedDepth sag; rw [hc, abs_lt]; constructor <;> nlinarith
  · unfold finalTarget compensatedStart compensatedDepth sag
    rw [hc, abs_lt]; constructor <;> nlinarith

/-- C3: when `toolWidth/2 > boreRadius` the cycle reports the geometry
error after the start marker and issues no motion command at all: the
event list is exactly the two markers around the warning message, with no
move event, so machine position and the motion queue are untouched. -/
theorem c3_geometry_guard (d q s p r h Xs Zs : ℝ) (words_l : Bool) (l : ℤ)
    (hguard : halfWidth s > Xs) :
    m800_execute d q s p r words_l l h Xs Zs =
      [Ev.sync, Ev.msg "M800 CYCLE START",
       Ev.msg "M800: Slot width exceeds bore diameter.",
       Ev.msg "M800 CYCLE END"] ∧
    ∀ m x z, Ev.move m x z ∉ m800_execute d q s p r words_l l h Xs Zs := by
  have he : m800_execute d q s p r words_l l h Xs Zs =
      [Ev.sync, Ev.msg "M800 CYCLE START",
       Ev.msg "M800: Slot width exceeds bore diameter.",
       Ev.msg "M800 CYCLE END"] := by
    simp only [m800_execute]
    rw [if_pos hguard]
  refine ⟨he, ?_⟩
  intro m x z hmem
  rw [he] at hmem
  simp at hmem

/-- Witness for C3: Scenario C, `S=22` from `X=10` (`halfWidth 11 > 10`). -/
theorem c3_geometry_guard_witness :
    m800_execute 2 10 22 1 2 false 0 1 10 0 =
      [Ev.sync, Ev.msg "M800 CYCLE START",
       Ev.msg "M800: Slot width exceeds bore diameter.",
       Ev.msg "M800 CYCLE END"] ∧
    ∀ m x z, Ev.move m x z ∉ m800_execute 2 10 22 1 2 false 0 1 10 0 :=
  c3_geometry_guard 2 10 22 1 2 1 10 0 false 0 (by norm_num [halfWidth])

lemma sag_ten_twelve : sag 10 12 = 2 := by
  unfold sag centerDistance halfWidth
  rw [show (10:ℝ) * 10 - 12 * (1/2) * (12 * (1/2)) = 8 ^ 2 by norm_num,
      Real.sqrt_sq (by norm_num : (0:ℝ) ≤ 8)]
  norm_num

/-- Fully evaluated trace of `M800 D1 Q10 S12 P1 R2` from machine position
`X=10 Z=0` (so the tool is 12 wide in a bore of radius 10: sag 2,
compensated start 8, corrected depth 3, three radial passes with plunge
targets 9, 10 and 11), with the H value left symbolic. -/
lemma kw_exec_concrete (h : ℝ) :
    m800_execute 1 10 12 1 2 false 0 h 10 0 =
      [Ev.sync, Ev.msg "M800 CYCLE START",
       Ev.move Mode.rapid 8 2,
       Ev.move Mode.rapid 8 2, Ev.move Mode.feed 8 2, Ev.move Mode.feed 8 (-10),
       Ev.move Mode.rapid 8 (-10), Ev.move Mode.rapid 8 2,
       Ev.move Mode.rapid 8 2, Ev.move Mode.feed 9 2, Ev.move Mode.feed 9 (-10),
       Ev.move Mode.rapid 8 (-10), Ev.move Mode.rapid 8 2,
       Ev.move Mode.rapid 8 2, Ev.move Mode.feed 10 2, Ev.move Mode.feed 10 (-10),
       Ev.move Mode.rapid 8 (-10), Ev.move Mode.rapid 8 2,
       Ev.move Mode.rapid 8 2, Ev.move Mode.feed 11 2, Ev.move Mode.feed 11 (-10),
       Ev.move Mode.rapid 8 (-10), Ev.move Mode.rapid 8 2,
       kwReturnMove (if h = 1 then true else false) 10 0 8 2,
       Ev.sync, Ev.msg "M800 CYCLE END"] := by
  rw [m800_execute_of_guard (by norm_num [halfWidth])]
  have h1 : compensatedStart 10 12 = 8 := by
    unfold compensatedStart; rw [sag_ten_twelve]; norm_num
  have h2 : compensatedDepth 1 10 12 = 3 := by
    unfold compensatedDepth; rw [sag_ten_twelve]; norm_num
  have h3 : finalTarget 1 10 12 = 11 := by
    unfold finalTarget; rw [h1, h2]; norm_num
  have h4 : (⌈(3:ℝ) / 1⌉).toNat = 3 := by
    rw [show (⌈(3:ℝ)/1⌉) = 3 by norm_num]; rfl
  rw [h1, h2, h3, h4]
  have t1 : kwPassTarget (8:ℝ) 1 11 1 = 9 := by
    unfold kwPassTarget; rw [if_neg (by norm_num)]; norm_num
  have t2 : kwPassTarget (8:ℝ) 1 11 2 = 10 := by
    unfold kwPassTarget; rw [if_neg (by norm_num)]; norm_num
  have t3 : kwPassTarget (8:ℝ) 1 11 3 = 11 := by
    unfold kwPassTarget; rw [if_neg (by norm_num)]; norm_num
  simp only [kwCycle, kwMotion, kwPrepos, kwFirstSection, kwRadialSection,
    listRepeat, kwFirstRep, kwRadialRep]
  norm_num [t1, t2, t3]

/-- Counterexample to C4: for the validated command `M800 D1 Q10 S12 P1 R2`
(implicitly `H1`) from machine position `X=10 Z=0`, the keyway variant
emits NO additional FinalPlunge feed move after the radial passes: the
events following the last radial pass (index 23 onward) are exactly the
rapid final return, the synchronize call and the end marker, and in
particular the feed move to `(finalTarget, travelStart + retract) = (11, 2)`
does not occur there (final depth is only reached inside the clamped last
radial pass). -/
theorem c4_counterexample :
    m800_execute 1 10 12 1 2 false 0 1 10 0 =
      [Ev.sync, Ev.msg "M800 CYCLE START",
       Ev.move Mode.rapid 8 2,
       Ev.move Mode.rapid 8 2, Ev.move Mode.feed 8 2, Ev.move Mode.feed 8 (-10),
       Ev.move Mode.rapid 8 (-10), Ev.move Mode.rapid 8 2,
       Ev.move Mode.rapid 8 2, Ev.move Mode.feed 9 2, Ev.move Mode.feed 9 (-10),
       Ev.move Mode.rapid 8 (-10), Ev.move Mode.rapid 8 2,
       Ev.move Mode.rapid 8 2, Ev.move Mode.feed 10 2, Ev.move Mode.feed 10 (-10),
       Ev.move Mode.rapid 8 (-10), Ev.move Mode.rapid 8 2,
       Ev.move Mode.rapid 8 2, Ev.move Mode.feed 11 2, Ev.move Mode.feed 11 (-10),
       Ev.move Mode.rapid 8 (-10), Ev.move Mode.rapid 8 2,
       Ev.move Mode.rapid 10 0,
       Ev.sync, Ev.msg "M800 CYCLE END"] ∧
    List.drop 23 (m800_execute 1 10 12 1 2 false 0 1 10 0) =
      [Ev.move Mode.rapid 10 0, Ev.sync, Ev.msg "M800 CYCLE END"] ∧
    Ev.move Mode.feed 11 2 ∉
      List.drop 23 (m800_execute 1 10 12 1 2 false 0 1 10 0) := by
  have he := kw_exec_concrete 1
  rw [if_pos rfl] at he
  rw [show kwReturnMove true (10:ℝ) 0 8 2 = Ev.move Mode.rapid 10 0 from rfl] at he
  refine ⟨he, ?_, ?_⟩
  · rw [he]
    rfl
  · rw [he]
    simp

/-- C4 amended: the keyway variant emits no separate FinalPlunge - between
its radial-pass section and the synchronized end marker there is exactly
one event, the final return, and it is a rapid (never a feed) move; the
plain part_002 variant is the one that emits an additional FinalPlunge
feed move to `(start - depth, travelStart + retract)` immediately after
its pass loop, with no further feed move after it. -/
theorem c4_amended :
    (∀ (Xs Zs Xns Xfin P Q R : ℝ) (passes Lreps : ℕ) (rh : Bool),
      kwCycle Xs Zs Xns Xfin P Q R passes Lreps rh =
        kwPrepos Xns Zs R ++ kwFirstSection Xns Zs Q R Lreps ++
          kwRadialSection Xns Xfin P Zs Q R Lreps passes ++
          [kwReturnMove rh Xs Zs Xns R, Ev.sync, Ev.msg "M800 CYCLE END"] ∧
      ∃ x z, kwReturnMove rh Xs Zs Xns R = Ev.move Mode.rapid x z) ∧
    ∀ (d l p r : ℝ) (words_n : Bool) (n : ℤ) (h Xs Zs : ℝ),
      p2_execute d l p r words_n n h Xs Zs =
        Ev.sync :: Ev.msg "M800 CYCLE BEGIN" ::
          ((p2PassesFrom Xs Zs (-l) r (-p) ((if words_n then n else 1).toNat) 0
              ((⌊|(-d) / (-p)| + 1 / 10000⌋).toNat) (Xs, Zs)).1 ++
            Ev.move Mode.feed (Xs - d) (Zs + r) ::
              ((if (if h = 0 then false else true) = true then
                  [Ev.move Mode.rapid Xs Zs] else []) ++
                [Ev.sync, Ev.msg "M800 CYCLE END"])) ∧
      ∀ ev ∈ (if (if h = 0 then false else true) = true then
            [Ev.move Mode.rapid Xs Zs] else []) ++
          [Ev.sync, Ev.msg "M800 CYCLE END"],
        ∀ x z, ev ≠ Ev.move Mode.feed x z := by
  constructor
  · intro Xs Zs Xns Xfin P Q R passes Lreps rh
    constructor
    · simp [kwCycle, kwMotion]
    · unfold kwReturnMove
      cases rh with
      | true => exact ⟨Xs, Zs, by rw [if_pos rfl]⟩
      | false => exact ⟨Xns, Zs + R, by rw [if_neg (by simp)]⟩
  · intro d l p r words_n n h Xs Zs
    constructor
    · rfl
    · intro ev hmem x z hcontra
      subst hcontra
      by_cases hc : (if h = 0 then false else true) = true
      · rw [if_pos hc] at hmem
        simp at hmem
      · rw [if_neg hc] at hmem
        simp at hmem

/-- Counterexample to C5: in the keyway variant's trace for
`M800 D1 Q10 S12 P1 R2 H1` from `X=10 Z=0`, the pre-positioning rapid,
the first Safe rapid and the first Depth feed (events 2, 3 and 4) are
three consecutive waypoints at the identical position `(8, 2)` - their
per-axis distance `0` is within the `1e-4` tolerance, yet all are issued:
the keyway variant performs no elision of coincident waypoints. -/
theorem c5_counterexample :
    List.take 5 (m800_execute 1 10 12 1 2 false 0 1 10 0) =
      [Ev.sync, Ev.msg "M800 CYCLE START", Ev.move Mode.rapid 8 2,
       Ev.move Mode.rapid 8 2, Ev.move Mode.feed 8 2] ∧
    |(8:ℝ) - 8| ≤ 1 / 10000 ∧ |(2:ℝ) - 2| ≤ 1 / 10000 := by
  refine ⟨?_, by norm_num, by norm_num⟩
  rw [kw_exec_concrete 1]
  rfl

/-- C5 amended: only the plain part_002 variant elides waypoints, and only
its Safe and BackZ rapids: its rep block starts with the Depth feed when
the position already coincides with the safe position within `1e-4` per
axis (Safe elided) and starts with the Safe rapid when it does not, and
ends with the BackX rapid when the length and retract rows coincide within
`1e-4` (BackZ elided); the keyway variant elides nothing - whenever its
first-pass section is nonempty its trace begins with two waypoints at the
identical position. -/
theorem c5_amended :
    (∀ (Xs Zs Xns Xfin P Q R : ℝ) (passes Lreps : ℕ) (rh : Bool),
      1 ≤ Lreps →
        List.take 2 (kwMotion Xs Zs Xns Xfin P Q R passes Lreps rh) =
          [Ev.move Mode.rapid Xns (Zs + R), Ev.move Mode.rapid Xns (Zs + R)]) ∧
    (∀ Xs Zs L R cd : ℝ, ∀ st : ℝ × ℝ,
      (|st.1 - Xs| ≤ 1 / 10000 → |st.2 - (Zs + R)| ≤ 1 / 10000 →
        (p2Rep Xs Zs L R cd st).1.head? =
          some (Ev.move Mode.feed (Xs + cd) (Zs + R))) ∧
      (|st.1 - Xs| > 1 / 10000 ∨ |st.2 - (Zs + R)| > 1 / 10000 →
        (p2Rep Xs Zs L R cd st).1.head? =
          some (Ev.move Mode.rapid Xs (Zs + R)))) ∧
    ∀ Xs Zs L R cd : ℝ, ∀ st : ℝ × ℝ,
      |Zs + L - (Zs + R)| ≤ 1 / 10000 →
        (p2Rep Xs Zs L R cd st).1.getLast? =
          some (Ev.move Mode.rapid Xs (Zs + L)) := by
  refine ⟨?_, ?_, ?_⟩
  · intro Xs Zs Xns Xfin P Q R passes Lreps rh hL
    obtain ⟨m, rfl⟩ : ∃ m, Lreps = m + 1 := ⟨Lreps - 1, by omega⟩
    simp [kwMotion, kwPrepos, kwFirstSection, listRepeat, kwFirstRep]
  · intro Xs Zs L R cd st
    constructor
    · intro h1 h2
      unfold p2Rep
      rw [if_neg (by push_neg; exact ⟨h1, h2⟩)]
      by_cases hz : |Zs + L - (Zs + R)| > 1 / 10000
      · rw [if_pos hz]; rfl
      · rw [if_neg hz]; rfl
    · intro hor
      unfold p2Rep
      rw [if_pos hor]
      by_cases hz : |Zs + L - (Zs + R)| > 1 / 10000
      · rw [if_pos hz]; rfl
      · rw [if_neg hz]; rfl
  · intro Xs Zs L R cd st hz
    unfold p2Rep
    rw [if_neg (not_lt.mpr hz)]
    by_cases hs : |st.1 - Xs| > 1 / 10000 ∨ |st.2 - (Zs + R)| > 1 / 10000
    · rw [if_pos hs]
      rfl
    · rw [if_neg hs]
      rfl

/-- Counterexample to C6: for the block `D=1 L=1 P=2 R=1 F=0` both the
step rule (`P > D`, spec rule 3) and the feed rule (spec rule 5) are
violated; the spec's listed order selects the step rule first, but the
part_002 validator reports the feed failure, because its code checks
`F > 0` before `P <= D`. -/
theorem c6_counterexample :
    p2_validate (P2Block.mk 1 1 2 1 0 false 0 false 0 : P2Block ℝ) =
      Except.error "M800: F must be > 0." ∧
    (Except.error "M800: F must be > 0." : Except String Unit) ≠
      Except.error "M800: P cannot be greater than D." := by
  constructor
  · unfold p2_validate
    rw [if_neg (by norm_num), if_neg (by norm_num), if_neg (by norm_num),
      if_neg (by norm_num), if_pos (by norm_num)]
  · simp

/-- C6 amended: each validator accepts exactly when all its positivity
checks, `step <= depth`, the optional repetition bound and the optional
return-flag domain hold (plus a positive feed: ambient for the keyway
variant, the F word for part_002); on violation the keyway variant only
returns the generic invalid-statement status, while part_002 reports the
first failing check in ITS OWN order, which tests `F > 0` before
`P <= D`; with `D=0.4, P=0.5` and all other words valid, both validators
reject - part_002 with the step message - before any cycle starts. -/
theorem c6_amended :
    (∀ (b : KwBlock ℝ) (f : ℝ), m800_validate b f = KwStatus.ok ↔
      (0 < b.d ∧ 0 < b.q ∧ 0 < b.s ∧ 0 < b.p ∧ 0 < b.r ∧ b.p ≤ b.d ∧
        (b.words_l = true → 1 ≤ b.l) ∧
        (b.words_h = true → b.h = 0 ∨ b.h = 1) ∧ 0 < f)) ∧
    (∀ b : P2Block ℝ, p2_validate b = Except.ok () ↔
      (0 < b.d ∧ 0 < b.l ∧ 0 < b.p ∧ 0 < b.r ∧ 0 < b.f ∧ b.p ≤ b.d ∧
        (b.words_n = true → 1 ≤ b.n) ∧
        (b.words_h = true → b.h = 0 ∨ b.h = 1))) ∧
    (∀ b : P2Block ℝ, 0 < b.d → 0 < b.l → 0 < b.p → 0 < b.r → b.f ≤ 0 →
      p2_validate b = Except.error "M800: F must be > 0.") ∧
    (∀ b : P2Block ℝ, b.d = 0.4 → b.p = 0.5 → 0 < b.l → 0 < b.r → 0 < b.f →
      p2_validate b = Except.error "M800: P cannot be greater than D.") ∧
    ∀ (b : KwBlock ℝ) (f : ℝ), b.d = 0.4 → b.p = 0.5 → 0 < b.q → 0 < b.s →
      0 < b.r → m800_validate b f = KwStatus.invalidStatement := by
  refine ⟨?_, ?_, ?_, ?_, ?_⟩
  · intro b f
    unfold m800_validate
    split_ifs with h1 h2 h3 h4 h5 h6 h7 h8 h9
    · exact ⟨fun hc => absurd hc (by simp), fun hrhs => absurd hrhs.1 (by linarith)⟩
    · exact ⟨fun hc => absurd hc (by simp), fun hrhs => absurd hrhs.2.1 (by linarith)⟩
    · exact ⟨fun hc => absurd hc (by simp), fun hrhs => absurd hrhs.2.2.1 (by linarith)⟩
    · exact ⟨fun hc => absurd hc (by simp), fun hrhs => absurd hrhs.2.2.2.1 (by linarith)⟩
    · exact ⟨fun hc => absurd hc (by simp), fun hrhs => absurd hrhs.2.2.2.2.1 (by linarith)⟩
    · exact ⟨fun hc => absurd hc (by simp), fun hrhs => absurd hrhs.2.2.2.2.2.1 (by linarith)⟩
    · refine ⟨fun hc => absurd hc (by simp), fun hrhs => ?_⟩
      have := hrhs.2.2.2.2.2.2.1 h7.1
      have := h7.2
      omega
    · refine ⟨fun hc => absurd hc (by simp), fun hrhs => ?_⟩
      rcases hrhs.2.2.2.2.2.2.2.1 h8.1 with h0 | h0
      · exact h8.2.1 h0
      · exact h8.2.2 h0
    · exact ⟨fun hc => absurd hc (by simp), fun hrhs =>
        absurd hrhs.2.2.2.2.2.2.2.2 (by intro hf; linarith)⟩
    · refine ⟨fun _ => ⟨not_le.mp h1, not_le.mp h2, not_le.mp h3, not_le.mp h4,
        not_le.mp h5, not_lt.mp h6, ?_, ?_, not_le.mp h9⟩, fun _ => rfl⟩
      · intro hw
        by_contra hcon
        exact h7 ⟨hw, by omega⟩
      · intro hw
        by_cases h0 : b.h = 0
        · exact Or.inl h0
        · by_cases hone : b.h = 1
          · exact Or.inr hone
          · exact absurd ⟨hw, h0, hone⟩ h8
  · intro b
    unfold p2_validate
    split_ifs with h1 h2 h3 h4 h5 h6 h7 h8
    · exact ⟨fun hc => absurd hc (by simp), fun hrhs => absurd hrhs.1 (by linarith)⟩
    · exact ⟨fun hc => absurd hc (by simp), fun hrhs => absurd hrhs.2.1 (by linarith)⟩
    · exact ⟨fun hc => absurd hc (by simp), fun hrhs => absurd hrhs.2.2.1 (by linarith)⟩
    · exact ⟨fun hc => absurd hc (by simp), fun hrhs => absurd hrhs.2.2.2.1 (by linarith)⟩
    · exact ⟨fun hc => absurd hc (by simp), fun hrhs => absurd hrhs.2.2.2.2.1 (by linarith)⟩
    · exact ⟨fun hc => absurd hc (by simp), fun hrhs => absurd hrhs.2.2.2.2.2.1 (by linarith)⟩
    · refine ⟨fun hc => absurd hc (by simp), fun hrhs => ?_⟩
      have := hrhs.2.2.2.2.2.2.1 h7.1
      have := h7.2
      omega
    · refine ⟨fun hc => absurd hc (by simp), fun hrhs => ?_⟩
      rcases hrhs.2.2.2.2.2.2.2 h8.1 with h0 | h0
      · exact h8.2.1 h0
      · exact h8.2.2 h0
    · refine ⟨fun _ => ⟨not_le.mp h1, not_le.mp h2, not_le.mp h3, not_le.mp h4,
        not_le.mp h5, not_lt.mp h6, ?_, ?_⟩, fun _ => rfl⟩
      · intro hw
        by_contra hcon
        exact h7 ⟨hw, by omega⟩
      · intro hw
        by_cases h0 : b.h = 0
        · exact Or.inl h0
        · by_cases hone : b.h = 1
          · exact Or.inr hone
          · exact absurd ⟨hw, h0, hone⟩ h8
  · intro b hd hl hp hr hf
    unfold p2_validate
    rw [if_neg (not_le.mpr hd), if_neg (not_le.mpr hl), if_neg (not_le.mpr hp),
      if_neg (not_le.mpr hr), if_pos hf]
  · intro b hd hp hl hr hf
    unfold p2_validate
    rw [if_neg (by rw [hd]; norm_num), if_neg (not_le.mpr hl),
      if_neg (by rw [hp]; norm_num), if_neg (not_le.mpr hr),
      if_neg (not_le.mpr hf), if_pos (by rw [hd, hp]; norm_num)]
  · intro b f hd hp hq hs hr
    unfold m800_validate
    rw [if_neg (by rw [hd]; norm_num), if_neg (not_le.mpr hq),
      if_neg (not_le.mpr hs), if_neg (by rw [hp]; norm_num),
      if_neg (not_le.mpr hr), if_pos (by rw [hd, hp]; norm_num)]

/-- C7: the H-supplied behaviours match the claim (`H1` returns to the
captured start, `H0` to `(compensatedStart, travelStart + retract)`), but
the documented default is broken: when the H word is absent the parser
leaves `values.h = 0` and line 263 computes `return_home = (h == 1.0f) =
false`, so the cycle for `M800 D1 Q10 S12 P1 R2` (no H) from `X=10 Z=0`
ends at `(8, 2)` and never issues the documented default return to the
original start `(10, 0)`. -/
theorem c7_return_default_bug :
    List.drop 23 (m800_execute 1 10 12 1 2 false 0 0 10 0) =
      [Ev.move Mode.rapid 8 2, Ev.sync, Ev.msg "M800 CYCLE END"] ∧
    Ev.move Mode.rapid 10 0 ∉ m800_execute 1 10 12 1 2 false 0 0 10 0 ∧
    (∀ Xs Zs Xns R : ℝ, kwReturnMove true Xs Zs Xns R =
      Ev.move Mode.rapid Xs Zs) ∧
    (∀ Xs Zs Xns R : ℝ, kwReturnMove false Xs Zs Xns R =
      Ev.move Mode.rapid Xns (Zs + R)) := by
  have he := kw_exec_concrete 0
  rw [if_neg (by norm_num : ¬((0:ℝ) = 1))] at he
  rw [show kwReturnMove false (10:ℝ) 0 8 2 = Ev.move Mode.rapid 8 2 by
    simp [kwReturnMove]] at he
  refine ⟨by rw [he]; rfl, ?_, fun Xs Zs Xns R => by simp [kwReturnMove],
    fun Xs Zs Xns R => by simp [kwReturnMove]⟩
  rw [he]
  intro hmem
  simp at hmem

/-- C8: in every keyway-variant cycle there is a synchronize request after
which no motion command occurs, the cycle-end marker occurs after that
synchronize, and the marker never occurs before it: every motion command
of the cycle precedes the drain, which precedes the end signal.  (In the
abort branch no motion exists and the initial synchronize serves.) -/
theorem c8_sync_before_end (d q s p r h Xs Zs : ℝ) (words_l : Bool) (l : ℤ) :
    ∃ l1 l2 : List (Ev ℝ),
      m800_execute d q s p r words_l l h Xs Zs = l1 ++ Ev.sync :: l2 ∧
      (∀ ev ∈ l2, ∀ m x z, ev ≠ Ev.move m x z) ∧
      Ev.msg "M800 CYCLE END" ∈ l2 ∧
      Ev.msg "M800 CYCLE END" ∉ l1 := by
  by_cases hguard : halfWidth s > Xs
  · refine ⟨[], [Ev.msg "M800 CYCLE START",
      Ev.msg "M800: Slot width exceeds bore diameter.",
      Ev.msg "M800 CYCLE END"], ?_, ?_, ?_, ?_⟩
    · simp only [m800_execute]
      rw [if_pos hguard]
      rfl
    · intro ev hmem m x z
      simp only [List.mem_cons, List.not_mem_nil, or_false] at hmem
      rcases hmem with h1 | h1 | h1 <;> subst h1 <;> simp
    · simp
    · simp
  · push_neg at hguard
    refine ⟨Ev.sync :: Ev.msg "M800 CYCLE START" ::
        kwMotion Xs Zs (compensatedStart Xs s) (finalTarget d Xs s) p (-q) r
          ((⌈compensatedDepth d Xs s / p⌉).toNat)
          ((if words_l then l else 1).toNat)
          (if h = 1 then true else false),
      [Ev.msg "M800 CYCLE END"], ?_, ?_, ?_, ?_⟩
    · rw [m800_execute_of_guard hguard]
      simp [kwCycle]
    · intro ev hmem m x z
      simp only [List.mem_cons, List.not_mem_nil, or_false] at hmem
      subst hmem
      simp
    · simp
    · intro hmem
      simp only [List.mem_cons] at hmem
      rcases hmem with h1 | h1 | h1
      · exact absurd h1 (by simp)
      · exact absurd h1 (by simp)
      · obtain ⟨m, x, z, hev⟩ := kwMotion_all_moves h1
        exact absurd hev (by simp)

/-- C9: for every bore radius `R > 0` the sag function of the Geometry
Compensator vanishes at tool width `0`, is strictly increasing in the
tool width on the claimed domain, and with tool width `0` the compensation
is a no-op: `compensatedDepth D R 0 = D` and `compensatedStart R 0 = R`. -/
theorem c9_sag_monotone (R : ℝ) (hR : 0 < R) :
    sag R 0 = 0 ∧
    (∀ W1 W2 : ℝ, 0 ≤ W1 → W1 < W2 → halfWidth W2 < R →
      sag R W1 < sag R W2) ∧
    (∀ D : ℝ, compensatedDepth D R 0 = D) ∧
    compensatedStart R 0 = R := by
  have h0 : sag R 0 = 0 := by
    unfold sag centerDistance halfWidth
    rw [show R * R - 0 * (1 / 2) * (0 * (1 / 2)) = R * R by ring,
      Real.sqrt_mul_self hR.le]
    ring
  refine ⟨h0, ?_, fun D => by unfold compensatedDepth; rw [h0]; ring,
    by unfold compensatedStart; rw [h0]; ring⟩
  intro W1 W2 hW1 h12 h2R
  unfold sag centerDistance
  have hh1 : halfWidth W1 < halfWidth W2 := by unfold halfWidth; linarith
  have hh2 : 0 ≤ halfWidth W1 := by unfold halfWidth; linarith
  have harg2 : 0 ≤ R * R - halfWidth W2 * halfWidth W2 := by nlinarith
  have hlt : R * R - halfWidth W2 * halfWidth W2 <
      R * R - halfWidth W1 * halfWidth W1 := by nlinarith
  have hs := Real.sqrt_lt_sqrt harg2 hlt
  linarith

/-- Witness for C9 at `R = 10` (with `W1 = 6 < W2 = 8` and `D = 5`
instantiating the inner quantifiers through the theorem statement). -/
theorem c9_sag_monotone_witness :
    sag 10 0 = 0 ∧
    (∀ W1 W2 : ℝ, 0 ≤ W1 → W1 < W2 → halfWidth W2 < 10 →
      sag 10 W1 < sag 10 W2) ∧
    (∀ D : ℝ, compensatedDepth D 10 0 = D) ∧
    compensatedStart 10 0 = 10 :=
  c9_sag_monotone 10 (by norm_num)

/-- C10: for every accepted command (validated words, geometry guard
passed) every motion target issued during the cycle - pre-positioning,
safety pass, radial passes and the final return under either H setting -
lies inside the envelope `[compensatedStart, finalTarget]` on the plunge
axis and `[travelStart - slotLength, travelStart + retract]` on the
travel axis. -/
theorem c10_envelope (d q s p r h Xs Zs : ℝ) (words_l : Bool) (l : ℤ)
    (hd : 0 < d) (hq : 0 < q) (hs : 0 < s) (hp : 0 < p) (hr : 0 < r)
    (hpd : p ≤ d) (hguard : halfWidth s ≤ Xs) :
    ∀ m x z, Ev.move m x z ∈ m800_execute d q s p r words_l l h Xs Zs →
      compensatedStart Xs s ≤ x ∧ x ≤ finalTarget d Xs s ∧
      Zs - q ≤ z ∧ z ≤ Zs + r := by
  have hsag : 0 ≤ sag Xs s := sag_nonneg hs.le hguard
  have hXfin : compensatedStart Xs s ≤ finalTarget d Xs s := by
    unfold finalTarget compensatedDepth
    linarith
  intro m x z hmem
  rw [m800_execute_of_guard hguard] at hmem
  simp only [List.mem_cons, kwCycle, List.mem_append] at hmem
  have hzbounds : ∀ w : ℝ, w = Zs + r ∨ w = Zs + -q → Zs - q ≤ w ∧ w ≤ Zs + r := by
    intro w hw
    rcases hw with hw | hw <;> rw [hw] <;> constructor <;> linarith
  rcases hmem with h1 | h1 | (h1 | h1)
  · exact absurd h1 (by simp)
  · exact absurd h1 (by simp)
  · rcases mem_kwMotion_move h1 with ⟨hx, hz⟩ | ⟨_, hx, hz⟩ | ⟨_, hx, hz⟩
    · refine ⟨?_, ?_, (hzbounds z hz).1, (hzbounds z hz).2⟩
      · rcases hx with hx | ⟨k, hk1, hk2, hx⟩
        · rw [hx]
        · rw [hx, kwPassTarget_eq_min]
          refine le_min ?_ hXfin
          have hk : (1 : ℝ) ≤ (k : ℝ) := by exact_mod_cast hk1
          nlinarith
      · rcases hx with hx | ⟨k, hk1, hk2, hx⟩
        · rw [hx]; exact hXfin
        · rw [hx, kwPassTarget_eq_min]; exact min_le_right _ _
    · subst hx; subst hz
      refine ⟨?_, ?_, by linarith, by linarith⟩
      · unfold compensatedStart; linarith
      · unfold finalTarget compensatedStart compensatedDepth; linarith
    · subst hx; subst hz
      exact ⟨le_refl _, hXfin, by linarith, by linarith⟩
  · exact absurd h1 (by simp)

/-- Witness for C10: `M800 D1 Q10 S12 P1 R2 H1` from `X=10 Z=0`. -/
theorem c10_envelope_witness :
    halfWidth (12:ℝ) ≤ 10 ∧
    ∀ m x z, Ev.move m x z ∈ m800_execute 1 10 12 1 2 false 0 1 10 0 →
      compensatedStart 10 12 ≤ x ∧ x ≤ finalTarget 1 10 12 ∧
      (0:ℝ) - 10 ≤ z ∧ z ≤ 0 + 2 :=
  ⟨by norm_num [halfWidth],
   c10_envelope 1 10 12 1 2 1 10 0 false 0 (by norm_num) (by norm_num)
     (by norm_num) (by norm_num) (by norm_num) (by norm_num)
     (by norm_num [halfWidth])⟩
